import Mathlib

/-!
Verification of the Terra-Link network orchestration layer.

This file shallowly embeds the network-facing parts of the repository:
the wire envelope (`NetworkMessage` with its codec), the Network Engine's
event loop (`src/network.rs`, `start_network`), the relay bootstrap
sequencer and the auto-dial policy (`src/main.rs`), and the UI-side
application state transitions (`src/app.rs`, `App::handle_network_event`).

Strings are modelled as byte lists (`Str := List Nat`); machine integers
that matter (the `u64` timestamp) are modelled as `Nat` (the codec below
uses a variable-length integer encoding, so no overflow arises).
-/

namespace TerraLink

/-- Byte strings: the model of Rust `String` / `Vec<u8>` contents. -/
abbrev Str : Type := List Nat

/-- Embed a Lean string literal as a byte list (one entry per character). -/
def strLit (s : String) : Str := s.data.map Char.toNat

/-! ## Message envelope codec

`src/network.rs` serializes `crate::proto::messages::NetworkMessage` with
prost; the generated `proto` module is not part of `src/`.

Modelled from the spec: the envelope is "a single oneof with variants
`Chat{senderId, text, timestampMillis}` and `Presence{senderId,
listenAddresses: [string], timestampMillis}`", serialized by a
deterministic, total `encode` into a compact binary form, with a partial
`decode` that fails on malformed/truncated/unknown-variant input.  The
codec below realises that contract with a tag byte followed by
length-prefixed fields (lengths and the timestamp as base-128 varints). -/

/-- Chat payload (`GlobalChat` in the proto module). -/
structure GlobalChat where
  sender_id : Str
  text : Str
  timestamp : Nat
deriving DecidableEq

/-- Presence payload (`Presence` in the proto module). -/
structure PresenceMsg where
  sender_id : Str
  listen_addrs : List Str
  timestamp : Nat
deriving DecidableEq

/-- The envelope oneof (`NetworkMessage.message_type` in the proto module). -/
inductive NetworkMessage where
  | Chat (c : GlobalChat)
  | Presence (p : PresenceMsg)
deriving DecidableEq

/-- Base-128 varint encoding, low bits first; the continuation bit is
modelled by adding 128.  Structural recursion on a fuel argument (the fuel
is always at least the encoded value, see `varintEncode`). -/
def varintEncodeAux : Nat → Nat → List Nat
  | 0, n => [n % 128]
  | fuel + 1, n => if n < 128 then [n] else (n % 128 + 128) :: varintEncodeAux fuel (n / 128)

/-- Base-128 varint encoding of a natural number. -/
def varintEncode (n : Nat) : List Nat := varintEncodeAux n n

/-- Base-128 varint decoding; returns the value and remaining bytes. -/
def varintDecode : List Nat → Option (Nat × List Nat)
  | [] => none
  | b :: rest =>
    if b < 128 then some (b, rest)
    else
      match varintDecode rest with
      | some (n, rest2) => some ((b - 128) + 128 * n, rest2)
      | none => none

/-- Length-prefixed byte-string field. -/
def encodeBytes (s : Str) : List Nat := varintEncode (List.length s) ++ s

/-- Decode a length-prefixed byte-string field. -/
def decodeBytes (l : List Nat) : Option (Str × List Nat) :=
  match varintDecode l with
  | some (n, rest) =>
    if n ≤ rest.length then some (rest.take n, rest.drop n) else none
  | none => none

/-- Concatenation of length-prefixed string fields (the repeated
`listen_addrs` field). -/
def encodeStrList : List Str → List Nat
  | [] => []
  | s :: rest => encodeBytes s ++ encodeStrList rest

/-- Decode `k` length-prefixed string fields. -/
def decodeStrList : Nat → List Nat → Option (List Str × List Nat)
  | 0, l => some ([], l)
  | k + 1, l =>
    match decodeBytes l with
    | some (s, rest) =>
      match decodeStrList k rest with
      | some (ss, rest2) => some (s :: ss, rest2)
      | none => none
    | none => none

/-- Envelope encoding: tag byte (1 = Chat, 2 = Presence) then the fields. -/
def encodeMsg : NetworkMessage → List Nat
  | .Chat c => 1 :: (encodeBytes c.sender_id ++ encodeBytes c.text ++ varintEncode c.timestamp)
  | .Presence p =>
    2 :: (encodeBytes p.sender_id ++ varintEncode p.listen_addrs.length ++
      encodeStrList p.listen_addrs ++ varintEncode p.timestamp)

/-- Envelope decoding; fails (`none`) on malformed, truncated or
unknown-variant input, and demands that the buffer is fully consumed. -/
def decodeMsg (l : List Nat) : Option NetworkMessage :=
  match l with
  | 1 :: rest =>
    match decodeBytes rest with
    | some (sid, r1) =>
      match decodeBytes r1 with
      | some (text, r2) =>
        match varintDecode r2 with
        | some (ts, r3) =>
          if r3 = [] then some (.Chat ⟨sid, text, ts⟩) else none
        | none => none
      | none => none
    | none => none
  | 2 :: rest =>
    match decodeBytes rest with
    | some (sid, r1) =>
      match varintDecode r1 with
      | some (k, r2) =>
        match decodeStrList k r2 with
        | some (addrs, r3) =>
          match varintDecode r3 with
          | some (ts, r4) =>
            if r4 = [] then some (.Presence ⟨sid, addrs, ts⟩) else none
          | none => none
        | none => none
      | none => none
    | none => none
  | _ => none

theorem varintDecode_encodeAux (fuel : Nat) :
    ∀ n rest, n ≤ fuel →
      varintDecode (varintEncodeAux fuel n ++ rest) = some (n, rest) := by
  induction fuel with
  | zero =>
    intro n rest hn
    interval_cases n
    simp [varintEncodeAux, varintDecode]
  | succ fuel ih =>
    intro n rest hn
    by_cases h : n < 128
    · simp [varintEncodeAux, h, varintDecode]
    · have hdiv : n / 128 ≤ fuel := by
        have : n / 128 < n := Nat.div_lt_self (by omega) (by omega)
        omega
      simp only [varintEncodeAux, h, if_false, List.cons_append]
      have hmod : ¬ (n % 128 + 128 < 128) := by omega
      simp only [varintDecode, hmod, if_false, ih (n / 128) rest hdiv]
      have hval : n % 128 + 128 - 128 + 128 * (n / 128) = n := by
        have := Nat.mod_add_div n 128
        omega
      simp only [hval]

theorem varintDecode_encode (n : Nat) (rest : List Nat) :
    varintDecode (varintEncode n ++ rest) = some (n, rest) :=
  varintDecode_encodeAux n n rest (Nat.le_refl n)

theorem decodeBytes_encodeBytes (s : Str) (rest : List Nat) :
    decodeBytes (encodeBytes s ++ rest) = some (s, rest) := by
  unfold decodeBytes encodeBytes
  rw [List.append_assoc, varintDecode_encode]
  have hlen : List.length s ≤ (List.append s rest).length := by
    simp [List.length_append]
  simp only [hlen, if_true]
  have ht : (List.append s rest).take s.length = s := by
    simp [List.take_left s rest]
  have hd : (List.append s rest).drop s.length = rest := by
    simp [List.drop_left s rest]
  simp [ht, hd]

theorem decodeStrList_encodeStrList (ss : List Str) (rest : List Nat) :
    decodeStrList ss.length (encodeStrList ss ++ rest) = some (ss, rest) := by
  induction ss generalizing rest with
  | nil => simp [decodeStrList, encodeStrList]
  | cons s ss ih =>
    simp only [encodeStrList, List.length_cons, decodeStrList, List.append_assoc,
      decodeBytes_encodeBytes, ih]

/-- C1: for every valid `NetworkMessage` value m (a Chat or Presence
envelope), decoding the bytes produced by encoding m yields exactly m:
decode(encode(m)) == m. -/
theorem decode_encode_roundtrip (m : NetworkMessage) :
    decodeMsg (encodeMsg m) = some m := by
  cases m with
  | Chat c =>
    have h3 : varintEncode c.timestamp = varintEncode c.timestamp ++ [] := by simp
    simp only [encodeMsg, decodeMsg, List.append_assoc, decodeBytes_encodeBytes]
    rw [h3, varintDecode_encode]
    simp
  | Presence p =>
    have h4 : varintEncode p.timestamp = varintEncode p.timestamp ++ [] := by simp
    simp only [encodeMsg, decodeMsg, List.append_assoc, decodeBytes_encodeBytes,
      varintDecode_encode, decodeStrList_encodeStrList]
    rw [h4, varintDecode_encode]
    simp

/-! ## Addresses

Multiaddresses are substrate (`libp2p`) values; the engine only iterates
over their protocol components (`src/network.rs` lines 127-133), appends
`/p2p-circuit` (line 192) and renders them into error messages.  The
component vocabulary below covers the fragment this repository touches. -/

/-- One component of a multiaddress.  Component payloads (the IPv4
quad, the port, the peer id, the DNS name) are kept as opaque strings:
the engine never computes with them. -/
inductive MProtocol where
  | Ip4 (addr : Str)
  | Ip6 (addr : Str)
  | Tcp (port : Str)
  | P2p (peer : Str)
  | P2pCircuit
  | Dns (name : Str)
deriving DecidableEq

/-- A multiaddress: a sequence of protocol components. -/
abbrev Multiaddr : Type := List MProtocol

/-- A network-layer IP address (`std::net::IpAddr`), payload opaque. -/
inductive IpAddr where
  | V4 (addr : Str)
  | V6 (addr : Str)
deriving DecidableEq

/-- Textual rendering of one component, as `Display` for `Multiaddr`
prints it (used in the engine's error messages). -/
def renderProto : MProtocol → Str
  | .Ip4 a => strLit "/ip4/" ++ a
  | .Ip6 a => strLit "/ip6/" ++ a
  | .Tcp p => strLit "/tcp/" ++ p
  | .P2p s => strLit "/p2p/" ++ s
  | .P2pCircuit => strLit "/p2p-circuit"
  | .Dns s => strLit "/dns/" ++ s

/-- Textual rendering of a multiaddress. -/
def renderMultiaddr (a : Multiaddr) : Str := (a.map renderProto).flatten

/-- Parse the components of a slash-separated multiaddr string.
Modelled from the spec: addresses are "self-describing multi-protocol
strings (transport + network family + optional peer-identity suffix)"
handled by the substrate (`Multiaddr::from_str`, not part of `src/`);
a token naming no known protocol makes the whole string unparseable. -/
def parseComps : List Str → Option (List MProtocol)
  | [] => some []
  | t :: rest =>
    if t = strLit "p2p-circuit" then
      (parseComps rest).map (fun ps => MProtocol.P2pCircuit :: ps)
    else
      match rest with
      | [] => none
      | v :: rest2 =>
        if t = strLit "ip4" then (parseComps rest2).map (fun ps => MProtocol.Ip4 v :: ps)
        else if t = strLit "ip6" then (parseComps rest2).map (fun ps => MProtocol.Ip6 v :: ps)
        else if t = strLit "tcp" then (parseComps rest2).map (fun ps => MProtocol.Tcp v :: ps)
        else if t = strLit "p2p" then (parseComps rest2).map (fun ps => MProtocol.P2p v :: ps)
        else if t = strLit "dns" then (parseComps rest2).map (fun ps => MProtocol.Dns v :: ps)
        else none

/-- Parse a multiaddr string: it must begin with `/`; the remainder is
split on `/` into protocol components.  Modelled from the spec (see
`parseComps`): parsing is partial, strings that are not multiaddresses
(for instance ones without the leading slash) fail. -/
def parseMultiaddr (s : Str) : Option Multiaddr :=
  match s with
  | 47 :: rest => parseComps (rest.splitOn 47)
  | _ => none

/-! ## Command/event bridge vocabulary (`src/network.rs` lines 25-48) -/

/-- Peer identities are opaque base58 strings minted by the substrate. -/
abbrev PeerId : Type := Str

/-- `NetworkCommand` (UI → Engine), `src/network.rs` lines 26-38. -/
inductive NetworkCommand where
  | Listen (addr : Multiaddr)
  | Dial (addr : Multiaddr)
  | ListenOnRelay (addr : Multiaddr)
  | PublishMessage (sender_id : Str) (text : Str)
  | BroadcastPresence (sender_id : Str) (listen_addrs : List Str)
deriving DecidableEq

/-- `NetworkEvent` (Engine → UI), `src/network.rs` lines 41-48. -/
inductive NetworkEvent where
  | Listening (addr : Multiaddr)
  | PeerConnected (peer : PeerId) (ip : IpAddr)
  | PeerDisconnected (peer : PeerId)
  | MessageReceived (sender_id : Str) (text : Str)
  | PeerDiscovered (sender_id : Str) (addr : Multiaddr)
  | Error (msg : Str)
deriving DecidableEq

/-! ## Network Engine: substrate event handling

`src/network.rs`, the `tokio::select!` loop inside `start_network`
(lines 119-258).  Each loop iteration handles one ready item: either a
swarm event or a command (or the closed command channel).  The handlers
below give the list of `NetworkEvent`s sent to the UI for that item.

Multiaddr parsing (`addr_str.parse::<Multiaddr>()`, line 158) is the
substrate's; the handlers take it as a parameter `parse` so that the
theorems hold for any parser, and concrete instances use the
spec-modelled `parseMultiaddr`. -/

/-- The substrate events the loop matches on (lines 122-175); `Other`
stands for the catch-all `other` arm. -/
inductive SwarmEvent where
  | NewListenAddr (address : Multiaddr)
  | ConnectionEstablished (peer_id : PeerId) (remote_addr : Multiaddr)
  | ConnectionClosed (peer_id : PeerId)
  | GossipsubMessage (data : List Nat)
  | Other
deriving DecidableEq

/-- IP extraction from the remote multiaddress, `src/network.rs` lines
126-133: a `for` loop over the components in which a later `Ip4`/`Ip6`
component overwrites an earlier one. -/
def extractIp (addr : Multiaddr) : Option IpAddr :=
  addr.foldl
    (fun ip p =>
      match p with
      | .Ip4 a => some (.V4 a)
      | .Ip6 a => some (.V6 a)
      | _ => ip)
    none

/-- The `for addr_str in presence.listen_addrs` loop of lines 157-163:
each address string that parses as a multiaddress yields one
`PeerDiscovered` event; unparseable strings are skipped. -/
def presenceEvents (parse : Str → Option Multiaddr) (sender_id : Str) :
    List Str → List NetworkEvent
  | [] => []
  | a :: rest =>
    match parse a with
    | some ma => NetworkEvent.PeerDiscovered sender_id ma :: presenceEvents parse sender_id rest
    | none => presenceEvents parse sender_id rest

/-- Events sent to the UI for one substrate event (lines 121-175). -/
def handleSwarmEvent (parse : Str → Option Multiaddr) : SwarmEvent → List NetworkEvent
  | .NewListenAddr address => [.Listening address]
  | .ConnectionEstablished peer_id remote_addr =>
    match extractIp remote_addr with
    | some ip => [.PeerConnected peer_id ip]
    | none => []
  | .ConnectionClosed peer_id => [.PeerDisconnected peer_id]
  | .GossipsubMessage data =>
    match decodeMsg data with
    | some (.Chat c) => [.MessageReceived c.sender_id c.text]
    | some (.Presence p) => presenceEvents parse p.sender_id p.listen_addrs
    | none => []
  | .Other => []

/-! ## Network Engine: command handling (`src/network.rs` lines 177-256) -/

/-- What one command handler does: the `NetworkEvent`s sent to the UI,
the gossipsub payloads published, and the lines written to the log
(`eprintln!`). -/
structure EngineOutput where
  events : List NetworkEvent
  published : List (List Nat)
  logs : List Str
deriving DecidableEq

/-- Handling of one received command (lines 179-251).  `now` is the
wall-clock timestamp in milliseconds taken at handling time; `res`
models the `Result` of the substrate operation the command triggers
(`swarm.listen_on` / `swarm.dial` / `gossipsub.publish`): `some e`
is `Err(e)` with `e` the error's rendering, `none` is `Ok`. -/
def handleCommand (now : Nat) (c : NetworkCommand) (res : Option Str) : EngineOutput :=
  match c with
  | .Listen addr =>
    match res with
    | some e =>
      ⟨[.Error (strLit "Listen error on " ++ renderMultiaddr addr ++ strLit ": " ++ e)], [], []⟩
    | none => ⟨[], [], []⟩
  | .Dial addr =>
    match res with
    | some e =>
      ⟨[.Error (strLit "Dial error for " ++ renderMultiaddr addr ++ strLit ": " ++ e)], [], []⟩
    | none => ⟨[], [], []⟩
  | .ListenOnRelay addr =>
    -- line 192: `addr.push(Protocol::P2pCircuit)` before `listen_on`
    match res with
    | some e =>
      ⟨[.Error (strLit "Relay Reservation error for " ++
          renderMultiaddr (addr ++ [.P2pCircuit]) ++ strLit ": " ++ e)], [], []⟩
    | none => ⟨[], [], []⟩
  | .PublishMessage sender_id text =>
    let buf := encodeMsg (.Chat ⟨sender_id, text, now⟩)
    match res with
    | some e => ⟨[], [buf], [strLit "Publish error: " ++ e]⟩
    | none => ⟨[], [buf], []⟩
  | .BroadcastPresence sender_id listen_addrs =>
    let buf := encodeMsg (.Presence ⟨sender_id, listen_addrs, now⟩)
    match res with
    | some e => ⟨[], [buf], [strLit "Broadcast presence error: " ++ e]⟩
    | none => ⟨[], [buf], []⟩

/-! ## Network Engine: the loop (`src/network.rs` lines 118-259) -/

/-- One ready item of the `tokio::select!`: a substrate event, a
received command (with its handling timestamp and substrate result), or
the command channel reporting closure (`recv()` returning `None`). -/
inductive EngineInput where
  | Swarm (e : SwarmEvent)
  | Cmd (now : Nat) (c : NetworkCommand) (res : Option Str)
  | CmdClosed
deriving DecidableEq

/-- The UI events one loop iteration emits for one ready item. -/
def engineStep (parse : Str → Option Multiaddr) : EngineInput → List NetworkEvent
  | .Swarm e => handleSwarmEvent parse e
  | .Cmd now c res => (handleCommand now c res).events
  | .CmdClosed => []

/-- The engine loop over a trace of ready items: it emits each item's
events in order and `break`s (lines 252-255) when the command channel
reports closure, emitting nothing further. -/
def engineRun (parse : Str → Option Multiaddr) : List EngineInput → List NetworkEvent
  | [] => []
  | .CmdClosed :: _ => []
  | i :: rest => engineStep parse i ++ engineRun parse rest

/-! ## Relay bootstrap sequencer (`src/main.rs` lines 85-114)

When a relay address is configured, `main` sends `Dial(relay_addr)`
(preceded by `Listen` on an ephemeral address when no `listen`/`dial`
argument provided one), then spawns a task that sleeps for the grace
period and only then sends `ListenOnRelay(relay_addr)`.  The model is a
timed trace of issued commands: each entry is (issue time in
milliseconds, command). -/

/-- The grace period of `src/main.rs` line 108 (`Duration::from_secs(2)`),
in milliseconds. -/
def relayGraceMillis : Nat := 2000

/-- The ephemeral listen address `/ip4/0.0.0.0/tcp/0` of line 91. -/
def ephemeralListenAddr : Multiaddr := [.Ip4 (strLit "0.0.0.0"), .Tcp (strLit "0")]

/-- The timed command trace of the relay bootstrap: `start` is the time
the bootstrap runs, `hasListenArg`/`hasDialArg` whether a command-line
`listen`/`dial` argument was given (lines 88, 64-82). -/
def relayBootstrapTrace (start : Nat) (relayAddr : Multiaddr)
    (hasListenArg hasDialArg : Bool) : List (Nat × NetworkCommand) :=
  (if hasListenArg || hasDialArg then [] else [(start, .Listen ephemeralListenAddr)]) ++
  [(start, .Dial relayAddr),
   (start + relayGraceMillis, .ListenOnRelay relayAddr)]

/-! ## Peer-discovery auto-dial (`src/main.rs` lines 174-181) -/

/-- The auto-dial decision of `run_app`: on `PeerDiscovered(sender, addr)`
dial iff `sender` parses to a peer id (`peer.parse::<PeerId>()`, a
substrate parser taken here as the parameter `parsePeer`) that is not in
the known-peers list and differs from the local peer id. -/
def autoDial (parsePeer : Str → Option PeerId) (peers : List PeerId)
    (local_peer_id : Option PeerId) (sender : Str) (addr : Multiaddr) :
    Option NetworkCommand :=
  match parsePeer sender with
  | some pid =>
    if ¬ peers.contains pid ∧ some pid ≠ local_peer_id then
      some (.Dial addr)
    else
      none
  | none => none

/-! ## Application state (`src/app.rs`)

Only the fields `handle_network_event` touches are modelled.  Geographic
locations are `(f64, f64, String)` triples produced by the out-of-scope
geo resolver; the location type is an arbitrary `Loc` and the resolver
(`geo_resolver.get_fuzzed_location`) the parameter `geo`.  The
`HashMap<PeerId, Loc>` is modelled as a function `PeerId → Option Loc`. -/

/-- The network-facing fields of `App` (`src/app.rs` lines 14-36). -/
structure App (Loc : Type) where
  peers : List PeerId
  listen_addrs : List Multiaddr
  chat_messages : List (Str × Str)
  peer_locations : PeerId → Option Loc

/-- `App::handle_network_event` (`src/app.rs` lines 162-186).  The match
in the source has no arm for `PeerDiscovered`/`Error` (those events are
handled in `run_app` only), so they leave the state unchanged. -/
def handleNetworkEvent {Loc : Type} (geo : IpAddr → Option Loc)
    (st : App Loc) : NetworkEvent → App Loc
  | .Listening addr => { st with listen_addrs := st.listen_addrs ++ [addr] }
  | .PeerConnected peer_id ip =>
    if st.peers.contains peer_id then st
    else
      { st with
        peers := st.peers ++ [peer_id],
        peer_locations :=
          match geo ip with
          | some loc => fun q => if q = peer_id then some loc else st.peer_locations q
          | none => st.peer_locations }
  | .PeerDisconnected peer_id =>
    { st with
      peers := st.peers.filter (fun p => p ≠ peer_id),
      peer_locations := fun q => if q = peer_id then none else st.peer_locations q }
  | .MessageReceived sender text =>
    let msgs := st.chat_messages ++ [(sender, text)]
    { st with chat_messages := if msgs.length > 100 then msgs.drop 1 else msgs }
  | .PeerDiscovered _ _ => st
  | .Error _ => st

/-! ## Theorems -/

theorem presenceEvents_eq_filterMap (parse : Str → Option Multiaddr) (sid : Str)
    (addrs : List Str) :
    presenceEvents parse sid addrs =
      addrs.filterMap (fun a => (parse a).map (fun ma => NetworkEvent.PeerDiscovered sid ma)) := by
  induction addrs with
  | nil => rfl
  | cons a rest ih =>
    cases h : parse a <;> simp [presenceEvents, h, ih]

/-- C2 (counterexample): a delivery decoding to a Presence envelope with
one listed address can produce zero `PeerDiscovered` events — the listed
address `not-an-addr` is not a parseable multiaddress, so the engine
skips it, contradicting "n addresses produce n PeerDiscovered events". -/
theorem presence_unparseable_address_cex :
    decodeMsg (encodeMsg (.Presence ⟨strLit "xyz", [strLit "not-an-addr"], 2000⟩)) =
      some (.Presence ⟨strLit "xyz", [strLit "not-an-addr"], 2000⟩) ∧
    ([strLit "not-an-addr"] : List Str).length = 1 ∧
    (handleSwarmEvent parseMultiaddr
      (.GossipsubMessage (encodeMsg (.Presence ⟨strLit "xyz", [strLit "not-an-addr"], 2000⟩)))).length
      = 0 := by
  refine ⟨by decide, by decide, by decide⟩

/-- C2 (amended): for every inbound pub/sub delivery whose bytes decode
to a Presence envelope, the Engine emits exactly one
`PeerDiscovered(senderId, aᵢ)` event per listed address aᵢ that parses
as a multiaddress, in list order; addresses that fail to parse are
skipped. -/
theorem presence_events_per_parseable_address
    (parse : Str → Option Multiaddr) (data : List Nat) (sid : Str)
    (addrs : List Str) (ts : Nat)
    (h : decodeMsg data = some (.Presence ⟨sid, addrs, ts⟩)) :
    handleSwarmEvent parse (.GossipsubMessage data) =
      addrs.filterMap (fun a => (parse a).map (fun ma => NetworkEvent.PeerDiscovered sid ma)) := by
  simp [handleSwarmEvent, h, presenceEvents_eq_filterMap]

/-- C2 (witness): the spec's own scenario — a Presence with the single
parseable address `/ip4/1.2.3.4/tcp/4001` yields exactly one
`PeerDiscovered` event. -/
theorem presence_events_per_parseable_address_witness :
    handleSwarmEvent parseMultiaddr
      (.GossipsubMessage (encodeMsg (.Presence ⟨strLit "xyz", [strLit "/ip4/1.2.3.4/tcp/4001"], 2000⟩))) =
      [strLit "/ip4/1.2.3.4/tcp/4001"].filterMap
        (fun a => (parseMultiaddr a).map (fun ma => NetworkEvent.PeerDiscovered (strLit "xyz") ma)) :=
  presence_events_per_parseable_address parseMultiaddr _ _ _ 2000 (by decide)

/-- The IP an individual multiaddress component denotes, if any. -/
def ipOfProto : MProtocol → Option IpAddr
  | .Ip4 a => some (.V4 a)
  | .Ip6 a => some (.V6 a)
  | _ => none

theorem extractIp_aux (l : Multiaddr) :
    ∀ acc : Option IpAddr,
      l.foldl
        (fun ip p =>
          match p with
          | MProtocol.Ip4 a => some (IpAddr.V4 a)
          | MProtocol.Ip6 a => some (IpAddr.V6 a)
          | _ => ip)
        acc =
      match l.reverse.findSome? ipOfProto with
      | some ip => some ip
      | none => acc := by
  induction l with
  | nil => intro acc; rfl
  | cons p rest ih =>
    intro acc
    rw [List.foldl_cons, ih, List.reverse_cons, List.findSome?_append]
    cases hr : rest.reverse.findSome? ipOfProto <;>
      cases p <;> simp [ipOfProto, List.findSome?]

/-- The engine's IP extraction keeps the last IP component of the
remote address. -/
theorem extractIp_eq_last_ip (l : Multiaddr) :
    extractIp l = l.reverse.findSome? ipOfProto := by
  unfold extractIp
  rw [extractIp_aux]
  cases l.reverse.findSome? ipOfProto <;> rfl

/-- C3 (counterexample): a connection-established event whose remote
multiaddress has no IP component (here `/dns/relay.example/tcp/4001`)
emits no `PeerConnected` event at all, contradicting "for every
substrate connection-established event, the Engine emits a
PeerConnected event". -/
theorem connection_without_ip_cex :
    ¬ ∃ ip, handleSwarmEvent parseMultiaddr
        (.ConnectionEstablished (strLit "QmRelay")
          [.Dns (strLit "relay.example"), .Tcp (strLit "4001")]) =
      [NetworkEvent.PeerConnected (strLit "QmRelay") ip] := by
  rintro ⟨ip, h⟩
  have h0 : handleSwarmEvent parseMultiaddr
      (.ConnectionEstablished (strLit "QmRelay")
        [.Dns (strLit "relay.example"), .Tcp (strLit "4001")]) = [] := by decide
  rw [h0] at h
  exact List.noConfusion h

/-- C3 (amended): on a substrate connection-established event the Engine
emits a `PeerConnected` event carrying the peer identity and the last
network-layer IP component of the connection's remote multiaddress
(port and protocol wrapping discarded) when the remote multiaddress
contains an IP component, and emits nothing when it contains none. -/
theorem peer_connected_iff_ip_component (parse : Str → Option Multiaddr)
    (pid : PeerId) (raddr : Multiaddr) :
    handleSwarmEvent parse (.ConnectionEstablished pid raddr) =
      match raddr.reverse.findSome? ipOfProto with
      | some ip => [NetworkEvent.PeerConnected pid ip]
      | none => [] := by
  simp only [handleSwarmEvent, extractIp_eq_last_ip]

/-- C4: the relay bootstrap sequencer never issues the
`ListenOnRelay` (circuit reservation) command before the configured
grace period (2000 ms) has elapsed since the dial to the relay address
was issued: in every bootstrap trace, every reservation entry is at
least `relayGraceMillis` after every dial entry. -/
theorem relay_reservation_after_grace (start : Nat) (relayAddr : Multiaddr)
    (hasListenArg hasDialArg : Bool) (td tr : Nat) (a b : Multiaddr)
    (hDial : (td, NetworkCommand.Dial a) ∈
      relayBootstrapTrace start relayAddr hasListenArg hasDialArg)
    (hRes : (tr, NetworkCommand.ListenOnRelay b) ∈
      relayBootstrapTrace start relayAddr hasListenArg hasDialArg) :
    td + relayGraceMillis ≤ tr := by
  cases hasListenArg <;> cases hasDialArg <;>
    simp only [relayBootstrapTrace, Bool.or_self, Bool.or_true, Bool.true_or,
      Bool.false_or, if_true, if_false, List.nil_append, List.cons_append,
      List.mem_cons, List.mem_singleton, List.not_mem_nil, Prod.mk.injEq,
      reduceCtorEq, and_false, false_or, or_false, reduceIte] at hDial hRes <;>
    omega

/-- C4 (witness): a concrete bootstrap trace in which the dial is issued
at time 0 and the reservation at time `relayGraceMillis`. -/
theorem relay_reservation_after_grace_witness :
    (0 : Nat) + relayGraceMillis ≤ 0 + relayGraceMillis :=
  relay_reservation_after_grace 0 [] false false 0 (0 + relayGraceMillis) [] []
    (by decide) (by decide)

/-- C5: the engine loop terminates only when the command channel reports
closure: over any trace of ready items, if closure is not among them the
loop handles every item (first conjunct), and when closure arrives the
loop emits exactly the events of the items before it and nothing for
any later item (second conjunct). -/
theorem engine_stops_only_on_closed_channel (parse : Str → Option Multiaddr)
    (pre post : List EngineInput) (h : EngineInput.CmdClosed ∉ pre) :
    engineRun parse pre = (pre.map (engineStep parse)).flatten ∧
    engineRun parse (pre ++ EngineInput.CmdClosed :: post) =
      (pre.map (engineStep parse)).flatten := by
  induction pre with
  | nil => exact ⟨rfl, rfl⟩
  | cons i rest ih =>
    have hi : i ≠ EngineInput.CmdClosed := fun hc => h (hc ▸ List.mem_cons_self i rest)
    have hrest : EngineInput.CmdClosed ∉ rest := fun hc => h (List.mem_cons_of_mem i hc)
    obtain ⟨ih1, ih2⟩ := ih hrest
    cases i with
    | CmdClosed => exact absurd rfl hi
    | Swarm e => simp [engineRun, ih1, ih2]
    | Cmd now c res => simp [engineRun, ih1, ih2]

/-- C5 (witness): a concrete trace — one substrate event, then closure,
then another substrate event; the loop emits only the first item's
events. -/
theorem engine_stops_only_on_closed_channel_witness :
    engineRun parseMultiaddr [EngineInput.Swarm (.ConnectionClosed (strLit "QmA"))] =
      ([[NetworkEvent.PeerDisconnected (strLit "QmA")]] : List (List NetworkEvent)).flatten ∧
    engineRun parseMultiaddr
      ([EngineInput.Swarm (.ConnectionClosed (strLit "QmA"))] ++
        EngineInput.CmdClosed :: [EngineInput.Swarm (.ConnectionClosed (strLit "QmB"))]) =
      ([[NetworkEvent.PeerDisconnected (strLit "QmA")]] : List (List NetworkEvent)).flatten :=
  engine_stops_only_on_closed_channel parseMultiaddr
    [EngineInput.Swarm (.ConnectionClosed (strLit "QmA"))]
    [EngineInput.Swarm (.ConnectionClosed (strLit "QmB"))] (by decide)

/-- The multiaddress targeted by the substrate operation a command
triggers, when there is one: `Listen`/`Dial` target their argument;
`ListenOnRelay` targets the argument with `/p2p-circuit` appended
(`src/network.rs` line 192). -/
def commandTarget : NetworkCommand → Option Multiaddr
  | .Listen addr => some addr
  | .Dial addr => some addr
  | .ListenOnRelay addr => some (addr ++ [.P2pCircuit])
  | .PublishMessage _ _ => none
  | .BroadcastPresence _ _ => none

/-- C6: for every `Listen`, `Dial` or `ListenOnRelay` command whose
substrate operation fails, the engine emits exactly one `Error` event
whose message contains the rendering of the operation's target address;
on success it emits no event for that command. -/
theorem address_command_error_events (now : Nat) (c : NetworkCommand)
    (a : Multiaddr) (res : Option Str) (ht : commandTarget c = some a) :
    (∀ e, res = some e →
      ∃ pre post, (handleCommand now c res).events =
        [NetworkEvent.Error (pre ++ renderMultiaddr a ++ post)]) ∧
    (res = none → (handleCommand now c res).events = []) := by
  cases c with
  | Listen addr =>
    obtain rfl : addr = a := by simpa [commandTarget] using ht
    refine ⟨fun e he => ?_, fun hn => by simp [hn, handleCommand]⟩
    subst he
    exact ⟨strLit "Listen error on ", strLit ": " ++ e, by simp [handleCommand]⟩
  | Dial addr =>
    obtain rfl : addr = a := by simpa [commandTarget] using ht
    refine ⟨fun e he => ?_, fun hn => by simp [hn, handleCommand]⟩
    subst he
    exact ⟨strLit "Dial error for ", strLit ": " ++ e, by simp [handleCommand]⟩
  | ListenOnRelay addr =>
    obtain rfl : addr ++ [MProtocol.P2pCircuit] = a := by simpa [commandTarget] using ht
    refine ⟨fun e he => ?_, fun hn => by simp [hn, handleCommand]⟩
    subst he
    exact ⟨strLit "Relay Reservation error for ", strLit ": " ++ e, by simp [handleCommand]⟩
  | PublishMessage sid text => exact absurd ht (by simp [commandTarget])
  | BroadcastPresence sid addrs => exact absurd ht (by simp [commandTarget])

/-- C6 (witness): a failing `Dial` of `/ip4/1.2.3.4/tcp/4001` emits one
`Error` event whose message contains the rendered target address. -/
theorem address_command_error_events_witness :
    ∃ pre post,
      (handleCommand 0 (.Dial [.Ip4 (strLit "1.2.3.4"), .Tcp (strLit "4001")])
        (some (strLit "boom"))).events =
      [NetworkEvent.Error
        (pre ++ renderMultiaddr [.Ip4 (strLit "1.2.3.4"), .Tcp (strLit "4001")] ++ post)] :=
  (address_command_error_events 0 (.Dial [.Ip4 (strLit "1.2.3.4"), .Tcp (strLit "4001")])
      [.Ip4 (strLit "1.2.3.4"), .Tcp (strLit "4001")] (some (strLit "boom")) rfl).1
    (strLit "boom") rfl

/-- C7: for every `PublishMessage` or `BroadcastPresence` command whose
publish to the shared topic fails, the engine emits no `NetworkEvent` at
all; the failure produces exactly one log line. -/
theorem publish_failure_silent (now : Nat) (sid text : Str) (addrs : List Str) (e : Str) :
    (handleCommand now (.PublishMessage sid text) (some e)).events = [] ∧
    (handleCommand now (.PublishMessage sid text) (some e)).logs.length = 1 ∧
    (handleCommand now (.BroadcastPresence sid addrs) (some e)).events = [] ∧
    (handleCommand now (.BroadcastPresence sid addrs) (some e)).logs.length = 1 := by
  refine ⟨rfl, rfl, rfl, rfl⟩

/-- C8: on `PeerDiscovered(sender, addr)` the UI loop issues
`Dial(addr)` if and only if `sender` parses to a peer identity that is
not in the known-peers list and differs from the local identity; in
particular a sender already known issues no dial. -/
theorem auto_dial_iff_new_peer (parsePeer : Str → Option PeerId)
    (peers : List PeerId) (local_peer_id : Option PeerId)
    (sender : Str) (addr : Multiaddr) :
    autoDial parsePeer peers local_peer_id sender addr = some (.Dial addr) ↔
      ∃ pid, parsePeer sender = some pid ∧ pid ∉ peers ∧ some pid ≠ local_peer_id := by
  cases h : parsePeer sender with
  | none => simp [autoDial, h]
  | some pid =>
    simp only [autoDial, h, Option.some.injEq]
    by_cases hmem : pid ∈ peers
    · simp [hmem, List.elem_iff.mpr hmem]
    · have hc : peers.contains pid = false := by
        simpa using fun hx => hmem (List.elem_iff.mp hx)
      by_cases hloc : some pid = local_peer_id
      · simp [hc, hloc]
      · simp [hc, hloc, hmem]

/-- C9: handling `PeerConnected(peerId, ip)` when `peerId` is already in
the known-peers list leaves the application state unchanged — the peers
list and the peer-locations map (and every other field) are exactly as
before. -/
theorem peer_connected_duplicate_noop {Loc : Type} (geo : IpAddr → Option Loc)
    (st : App Loc) (pid : PeerId) (ip : IpAddr) (h : pid ∈ st.peers) :
    handleNetworkEvent geo st (.PeerConnected pid ip) = st := by
  simp [handleNetworkEvent, h]

/-- C9 (witness): a concrete duplicate connection notification for the
already-known peer `A` is a no-op. -/
theorem peer_connected_duplicate_noop_witness :
    handleNetworkEvent (fun _ => none)
      (⟨[strLit "A"], [], [], fun _ => none⟩ : App Unit)
      (.PeerConnected (strLit "A") (.V4 (strLit "9.9.9.9"))) =
      (⟨[strLit "A"], [], [], fun _ => none⟩ : App Unit) :=
  peer_connected_duplicate_noop (fun _ => none)
    (⟨[strLit "A"], [], [], fun _ => none⟩ : App Unit)
    (strLit "A") (.V4 (strLit "9.9.9.9")) (by decide)

/-- C10: `App::handle_network_event` keeps the chat history bounded by
100 entries: for every `NetworkEvent`, a history of at most 100 entries
before handling has at most 100 entries afterwards (on
`MessageReceived` the oldest entry is removed when the bound would be
exceeded). -/
theorem chat_history_bounded {Loc : Type} (geo : IpAddr → Option Loc)
    (st : App Loc) (ev : NetworkEvent) (h : st.chat_messages.length ≤ 100) :
    (handleNetworkEvent geo st ev).chat_messages.length ≤ 100 := by
  cases ev with
  | Listening addr => simpa [handleNetworkEvent] using h
  | PeerConnected pid ip =>
    by_cases hc : pid ∈ st.peers <;>
      cases hg : geo ip <;> simp [handleNetworkEvent, hc, hg, h]
  | PeerDisconnected pid => simpa [handleNetworkEvent] using h
  | MessageReceived sender text =>
    simp only [handleNetworkEvent]
    split <;>
      rename_i hcond <;>
      simp only [List.length_drop, List.length_append, List.length_cons,
        List.length_nil] at hcond ⊢ <;>
      omega
  | PeerDiscovered sender addr => simpa [handleNetworkEvent] using h
  | Error msg => simpa [handleNetworkEvent] using h

/-- C10 (witness): handling a received message on a concrete in-bound
state keeps the history within the bound. -/
theorem chat_history_bounded_witness :
    (handleNetworkEvent (fun _ => none)
      (⟨[], [], [(strLit "a", strLit "b")], fun _ => none⟩ : App Unit)
      (.MessageReceived (strLit "c") (strLit "d"))).chat_messages.length ≤ 100 :=
  chat_history_bounded (fun _ => none)
    (⟨[], [], [(strLit "a", strLit "b")], fun _ => none⟩ : App Unit)
    (.MessageReceived (strLit "c") (strLit "d")) (by decide)

end TerraLink
